import Mathlib

/-!
Shallow embedding of the DXF→tiled-PDF converter (`dxf_tiled_pdf.py`).

Real-valued quantities (Python floats) are modelled as exact rationals `ℚ`;
`math.ceil` is modelled by the exact ceiling `Int.ceil`.  Fallible code
(`raise ValueError`) is modelled with `Except String`; `None` results with
`Option`.  The external drawing library (ezdxf) is modelled by explicit
records: a document carries a layer lookup and a linetype table, and curve
flattening (an external numerical routine, `ezdxf.path.flattening`) is
carried on the entity as a function from the flattening tolerance to the
produced point list.  The PDF canvas (reportlab) is modelled as a list of
emitted sink calls.
-/

/-- `reportlab.lib.units.mm`: one millimetre in PDF points, `72 / 25.4`. -/
def mm : ℚ := 360 / 127

/-- A bounding box `(minx, miny, maxx, maxy)` in world units. -/
structure BBox where
  minx : ℚ
  miny : ℚ
  maxx : ℚ
  maxy : ℚ
deriving DecidableEq, Repr

/-- One tile of the grid: `(i, j, x0, y0)` as appended by `compute_tiles`. -/
structure Tile where
  i : ℕ
  j : ℕ
  x0 : ℚ
  y0 : ℚ
deriving DecidableEq, Repr

/-- `compute_tiles` (src/dxf_tiled_pdf.py:464-483): plans the tile grid. -/
def compute_tiles (bbox : BBox) (printable_w_wu printable_h_wu overlap_wu : ℚ) :
    Except String (List Tile × ℕ × ℕ) :=
  let total_w := bbox.maxx - bbox.minx
  let total_h := bbox.maxy - bbox.miny
  let step_w := printable_w_wu - overlap_wu
  let step_h := printable_h_wu - overlap_wu
  if step_w ≤ 0 ∨ step_h ≤ 0 then
    Except.error "Overlap too large; no printable area remains."
  else
    let nx : ℕ := (max 1 ⌈(total_w - overlap_wu) / step_w⌉).toNat
    let ny : ℕ := (max 1 ⌈(total_h - overlap_wu) / step_h⌉).toNat
    let tiles : List Tile := (List.range ny).flatMap fun j =>
      (List.range nx).map fun i =>
        ⟨i, j, bbox.minx + i * step_w, bbox.miny + j * step_h⟩
    Except.ok (tiles, nx, ny)

/-- `WorldToPage` (src/dxf_tiled_pdf.py:30-45): per-tile world→page transform. -/
structure WorldToPage where
  scale_wu_to_pt : ℚ
  world_x0 : ℚ
  world_y0 : ℚ
  page_x0_pt : ℚ
  page_y0_pt : ℚ
deriving DecidableEq, Repr

/-- `WorldToPage.w2p`: maps a world-unit point to a page-unit (point) pair. -/
def WorldToPage.w2p (t : WorldToPage) (x_wu y_wu : ℚ) : ℚ × ℚ :=
  (t.page_x0_pt + (x_wu - t.world_x0) * t.scale_wu_to_pt,
   t.page_y0_pt + (y_wu - t.world_y0) * t.scale_wu_to_pt)

/-- Python's `str.upper()`: uppercase every character (kernel-computable
model of the library routine). -/
def pyUpper (s : String) : String := ⟨s.data.map Char.toUpper⟩

/-- Python's `str.strip()`: drop whitespace from both ends
(kernel-computable model of the library routine). -/
def pyStrip (s : String) : String :=
  ⟨((s.data.dropWhile Char.isWhitespace).reverse.dropWhile Char.isWhitespace).reverse⟩

/-- `_linetype_name_is_continuous` (src/dxf_tiled_pdf.py:69-72).  A missing
name and the empty string are falsy in Python, hence continuous. -/
def linetype_name_is_continuous (name : Option String) : Bool :=
  match name with
  | none => true
  | some s =>
    if s = "" then true
    else (pyUpper (pyStrip s) == "CONTINUOUS") || (pyUpper (pyStrip s) == "CONT")

/-- A layer table record: its (possibly missing or empty) linetype name. -/
structure LayerRec where
  linetype : Option String
deriving DecidableEq, Repr

/-- The drawing document as the core uses it: the layer lookup
(`doc.layers.get`, `none` modelling a failed lookup) and the linetype table
(name → simplified ON/OFF pattern in world units, as returned by ezdxf's
`simplified_line_pattern`). -/
structure Doc where
  layers : String → Option LayerRec
  linetypes : List (String × List ℚ)

/-- `_get_linetype_case_insensitive` (src/dxf_tiled_pdf.py:75-84): the exact
table lookup first, then a case-insensitive scan; `none` models the final
`KeyError`. -/
def get_linetype_case_insensitive (linetypes : List (String × List ℚ))
    (name : String) : Option (List ℚ) :=
  match linetypes.find? (fun p => p.1 == name) with
  | some p => some p.2
  | none =>
    match linetypes.find? (fun p => pyUpper (pyStrip p.1) == pyUpper (pyStrip name)) with
    | some p => some p.2
    | none => none

/-- Geometry of one DXF entity, by `dxftype()` tag.  Splines and ellipses
carry the external flattening routine as a function from the flattening
tolerance (world units) to the flattened point list. -/
inductive EntityGeom where
  | line (p1 p2 : ℚ × ℚ)
  | lwpolyline (pts : List (ℚ × ℚ)) (closed : Bool)
  | polyline (pts : List (ℚ × ℚ)) (isClosed : Bool)
  | circle (center : ℚ × ℚ) (radius : ℚ)
  | arc (center : ℚ × ℚ) (radius : ℚ) (startAngle endAngle : ℚ)
  | point (location : ℚ × ℚ)
  | spline (flat : ℚ → List (ℚ × ℚ))
  | ellipse (flat : ℚ → List (ℚ × ℚ))
  | unsupported (tag : String)

/-- A DXF entity: its geometry plus the `e.dxf.linetype` and `e.dxf.layer`
attributes (`none` models a missing attribute). -/
structure Entity where
  geom : EntityGeom
  linetype : Option String
  layer : Option String

/-- `_effective_linetype_name` (src/dxf_tiled_pdf.py:87-106). -/
def effective_linetype_name (doc : Doc) (e : Entity) : String :=
  let lt := match e.linetype with
    | none => "BYLAYER"
    | some s => if s = "" then "BYLAYER" else s
  let lt_u := pyUpper (pyStrip lt)
  if lt_u = "BYLAYER" then
    let layer_name := e.layer.getD "0"
    match doc.layers layer_name with
    | none => "CONTINUOUS"
    | some layer =>
      match layer.linetype with
      | none => "CONTINUOUS"
      | some s => if s = "" then "CONTINUOUS" else s
  else if lt_u = "BYBLOCK" then "CONTINUOUS"
  else lt

/-- `_reportlab_dash_array_for_linetype` (src/dxf_tiled_pdf.py:109-146). -/
def reportlab_dash_array_for_linetype (doc : Doc) (linetype_name : String)
    (scale_wu_to_pt : ℚ) : Option (List ℚ) :=
  if linetype_name_is_continuous (some linetype_name) then none
  else
    match get_linetype_case_insensitive doc.linetypes linetype_name with
    | none => none
    | some pattern_wu =>
      if pattern_wu.isEmpty then none
      else
        let dash_scale : ℚ := 3 / 10
        let pattern_pt := pattern_wu.map fun seg =>
          let seg_pt := seg * scale_wu_to_pt * dash_scale
          if seg_pt ≤ 0 then (1 / 5) * mm else seg_pt
        some (if pattern_pt.length % 2 = 1 then pattern_pt ++ pattern_pt else pattern_pt)

/-- `_flatten_path_entity_points` (src/dxf_tiled_pdf.py:149-168).  Python's
`if not scale_wu_to_pt` is true for both `None` and `0.0`. -/
def flatten_path_entity_points (flat : ℚ → List (ℚ × ℚ))
    (scale_wu_to_pt : Option ℚ) (flatten_mm : ℚ) : List (ℚ × ℚ) :=
  match scale_wu_to_pt with
  | none => []
  | some s =>
    if s = 0 then []
    else
      let flatten_dist_wu := flatten_mm * mm / s
      if flatten_dist_wu ≤ 0 then [] else flat flatten_dist_wu

/-- Minimum of `x` and the members of `l` (Python `min` over a list). -/
def listMin (x : ℚ) (l : List ℚ) : ℚ := l.foldl min x

/-- Maximum of `x` and the members of `l` (Python `max` over a list). -/
def listMax (x : ℚ) (l : List ℚ) : ℚ := l.foldl max x

/-- `entity_bbox_wu` (src/dxf_tiled_pdf.py:183-261).  An empty LWPOLYLINE
makes `min([])` raise; the surrounding `except` turns that into `None`. -/
def entity_bbox_wu (e : Entity) (scale_wu_to_pt : Option ℚ)
    (spline_flatten_mm : ℚ) : Option BBox :=
  match e.geom with
  | .line p1 p2 =>
    some ⟨min p1.1 p2.1, min p1.2 p2.2, max p1.1 p2.1, max p1.2 p2.2⟩
  | .lwpolyline pts _ =>
    match pts with
    | [] => none
    | p :: rest =>
      some ⟨listMin p.1 (rest.map Prod.fst), listMin p.2 (rest.map Prod.snd),
            listMax p.1 (rest.map Prod.fst), listMax p.2 (rest.map Prod.snd)⟩
  | .polyline pts _ =>
    match pts with
    | [] => none
    | p :: rest =>
      some ⟨listMin p.1 (rest.map Prod.fst), listMin p.2 (rest.map Prod.snd),
            listMax p.1 (rest.map Prod.fst), listMax p.2 (rest.map Prod.snd)⟩
  | .circle c r => some ⟨c.1 - r, c.2 - r, c.1 + r, c.2 + r⟩
  | .arc c r _ _ => some ⟨c.1 - r, c.2 - r, c.1 + r, c.2 + r⟩
  | .point p => some ⟨p.1, p.2, p.1, p.2⟩
  | .spline flat =>
    match flatten_path_entity_points flat scale_wu_to_pt spline_flatten_mm with
    | [] => none
    | p :: rest =>
      some ⟨listMin p.1 (rest.map Prod.fst), listMin p.2 (rest.map Prod.snd),
            listMax p.1 (rest.map Prod.fst), listMax p.2 (rest.map Prod.snd)⟩
  | .ellipse flat =>
    match flatten_path_entity_points flat scale_wu_to_pt spline_flatten_mm with
    | [] => none
    | p :: rest =>
      some ⟨listMin p.1 (rest.map Prod.fst), listMin p.2 (rest.map Prod.snd),
            listMax p.1 (rest.map Prod.fst), listMax p.2 (rest.map Prod.snd)⟩
  | .unsupported _ => none

/-- `drawing_bbox_wu` (src/dxf_tiled_pdf.py:264-283): aggregate bbox. -/
def drawing_bbox_wu (ents : List Entity) (scale_wu_to_pt : Option ℚ)
    (spline_flatten_mm : ℚ) : Except String BBox :=
  match ents.filterMap (fun e => entity_bbox_wu e scale_wu_to_pt spline_flatten_mm) with
  | [] => Except.error "No supported geometry found in DXF (LINE/LWPOLYLINE/SPLINE/etc.)."
  | b :: rest =>
    Except.ok ⟨listMin b.minx (rest.map BBox.minx), listMin b.miny (rest.map BBox.miny),
               listMax b.maxx (rest.map BBox.maxx), listMax b.maxy (rest.map BBox.maxy)⟩

/-- One call to the reportlab canvas (the page-drawing sink). -/
inductive SinkCall where
  | saveState
  | restoreState
  | setDash (pattern : List ℚ) (phase : ℚ)
  | setDashOnOff (dashOn dashOff : ℚ)
  | setLineWidth (w : ℚ)
  | setLineCap (cap : ℕ)
  | lineCall (x1 y1 x2 y2 : ℚ)
  | pathCall (pts : List (ℚ × ℚ)) (closed : Bool)
  | circleCall (x y r : ℚ) (stroke fill : Bool)
  | arcCall (x1 y1 x2 y2 startAng extent : ℚ)
deriving DecidableEq, Repr

/-- Whether a sink call draws geometry (as opposed to managing graphics
state). -/
def SinkCall.isGeometry : SinkCall → Bool
  | .lineCall _ _ _ _ => true
  | .pathCall _ _ => true
  | .circleCall _ _ _ _ _ => true
  | .arcCall _ _ _ _ _ _ => true
  | _ => false

/-- `_draw_polyline_from_vec3` (src/dxf_tiled_pdf.py:171-180): draws an open
path through the transformed points; nothing for fewer than two points. -/
def draw_polyline_from_vec3 (xform : WorldToPage) (pts : List (ℚ × ℚ)) :
    List SinkCall :=
  if pts.length < 2 then []
  else [.pathCall (pts.map fun p => xform.w2p p.1 p.2) false]

/-- `draw_edge_alignment_dashed_line` (src/dxf_tiled_pdf.py:290-321) with its
default dash lengths 0.5 mm on, 9.5 mm off. -/
def draw_edge_alignment_dashed_line (seam_x_pt seam_y_pt : Option ℚ)
    (page_w_pt page_h_pt inset_pt : ℚ) : List SinkCall :=
  [.saveState, .setLineWidth (4 / 5), .setLineCap 1,
   .setDashOnOff ((1 / 2) * mm) ((19 / 2) * mm)] ++
  (match seam_x_pt with
   | some x => [.lineCall x inset_pt x (page_h_pt - inset_pt)]
   | none => []) ++
  (match seam_y_pt with
   | some y => [.lineCall inset_pt y (page_w_pt - inset_pt) y]
   | none => []) ++
  [.restoreState]

/-- The dash-state call of `draw_entity` (src/dxf_tiled_pdf.py:373-374):
`c.setDash(dash, 0)` is emitted only when `dash` is truthy in Python, i.e.
neither `None` nor the empty list. -/
def dash_calls (dash : Option (List ℚ)) : List SinkCall :=
  match dash with
  | some pat => if pat.isEmpty then [] else [.setDash pat 0]
  | none => []

/-- The per-kind drawing calls of `draw_entity` (src/dxf_tiled_pdf.py:376-455):
the geometry emitted between `saveState`/`restoreState` for one entity. -/
def draw_entity_body (e : Entity) (xform : WorldToPage) : List SinkCall :=
  match e.geom with
  | .line p1 p2 =>
    [.lineCall (xform.w2p p1.1 p1.2).1 (xform.w2p p1.1 p1.2).2
      (xform.w2p p2.1 p2.2).1 (xform.w2p p2.1 p2.2).2]
  | .lwpolyline pts closed =>
    match pts with
    | [] => []
    | _ => [.pathCall (pts.map fun p => xform.w2p p.1 p.2) closed]
  | .polyline pts isClosed =>
    match pts with
    | [] => []
    | _ => [.pathCall (pts.map fun p => xform.w2p p.1 p.2) isClosed]
  | .circle cc r =>
    [.circleCall (xform.w2p cc.1 cc.2).1 (xform.w2p cc.1 cc.2).2
      (r * xform.scale_wu_to_pt) true false]
  | .arc cc r startA endA =>
    let p := xform.w2p cc.1 cc.2
    let r_pt := r * xform.scale_wu_to_pt
    [.arcCall (p.1 - r_pt) (p.2 - r_pt) (p.1 + r_pt) (p.2 + r_pt)
      startA (endA - startA)]
  | .point p =>
    [.circleCall (xform.w2p p.1 p.2).1 (xform.w2p p.1 p.2).2
      ((2 / 5) * mm) false true]
  | .spline flat =>
    draw_polyline_from_vec3 xform
      (flatten_path_entity_points flat (some xform.scale_wu_to_pt) (1 / 2))
  | .ellipse flat =>
    draw_polyline_from_vec3 xform
      (flatten_path_entity_points flat (some xform.scale_wu_to_pt) (1 / 2))
  | .unsupported _ => []

/-- `draw_entity` (src/dxf_tiled_pdf.py:351-457) as the list of sink calls it
emits.  The exclude-noncontinuous early return happens before `saveState`;
`if dash:` is false in Python for both `None` and an empty list. -/
def draw_entity (e : Entity) (xform : WorldToPage) (doc : Option Doc)
    (exclude_noncontinuous_linetypes : Bool) : List SinkCall :=
  let dashOpt : Option (Option (List ℚ)) :=
    match doc with
    | none => some none
    | some d =>
      let lt_name := effective_linetype_name d e
      if exclude_noncontinuous_linetypes
          && !(linetype_name_is_continuous (some lt_name)) then
        none
      else
        some (reportlab_dash_array_for_linetype d lt_name xform.scale_wu_to_pt)
  match dashOpt with
  | none => []
  | some dash =>
    .saveState :: dash_calls dash ++ draw_entity_body e xform ++ [.restoreState]

/-- `PageSpec` (src/dxf_tiled_pdf.py:22-27). -/
structure PageSpec where
  width_pt : ℚ
  height_pt : ℚ
  margin_pt : ℚ
  overlap_pt : ℚ
deriving DecidableEq, Repr

/-- The per-tile output of `main`'s loop (src/dxf_tiled_pdf.py:560-622) that
the claims are about: the tile's grid index, the seam-indicator coordinates
this page receives (the argument of `draw_edge_alignment_dashed_line`, or
`none` where no neighbour exists), and the tile's world origin. -/
structure TilePage where
  i : ℕ
  j : ℕ
  seamX : Option ℚ
  seamY : Option ℚ
  originX : ℚ
  originY : ℚ
deriving DecidableEq, Repr

/-- `main`'s page loop (src/dxf_tiled_pdf.py:560-622): one page per planned
tile, in the planner's list order; a vertical seam at page x `step_w_pt` when
a right neighbour exists (`i < nx - 1`), a horizontal seam at page y
`step_h_pt` when an upper neighbour exists (`j < ny - 1`). -/
def compositor_pages (tiles : List Tile) (nx ny : ℕ)
    (step_w_pt step_h_pt : ℚ) : List TilePage :=
  tiles.map fun t =>
    ⟨t.i, t.j,
     if t.i < nx - 1 then some step_w_pt else none,
     if t.j < ny - 1 then some step_h_pt else none,
     t.x0, t.y0⟩

/-- Claim C2: `w2p` returns exactly the affine formula; the tile's world
origin maps exactly to the page origin; differences scale uniformly by
`scale` on both axes (affine, no rotation). -/
theorem C2_transform_affine (t : WorldToPage) (x y : ℚ) :
    t.w2p x y = (t.page_x0_pt + (x - t.world_x0) * t.scale_wu_to_pt,
                 t.page_y0_pt + (y - t.world_y0) * t.scale_wu_to_pt) ∧
    t.w2p t.world_x0 t.world_y0 = (t.page_x0_pt, t.page_y0_pt) ∧
    ∀ px py qx qy : ℚ,
      (t.w2p px py).1 - (t.w2p qx qy).1 = t.scale_wu_to_pt * (px - qx) ∧
      (t.w2p px py).2 - (t.w2p qx qy).2 = t.scale_wu_to_pt * (py - qy) := by
  refine ⟨rfl, ?_, ?_⟩
  · simp [WorldToPage.w2p]
  · intro px py qx qy
    constructor <;> simp [WorldToPage.w2p] <;> ring

/-- Claim C4: the planner fails with the overlap-too-large error exactly when
either step is nonpositive, and succeeds exactly when both steps are
positive (in the `Except` embedding an error produces no tiles). -/
theorem C4_overlap_error (bbox : BBox) (pw ph o : ℚ) :
    (compute_tiles bbox pw ph o =
        Except.error "Overlap too large; no printable area remains."
      ↔ pw - o ≤ 0 ∨ ph - o ≤ 0) ∧
    ((∃ r, compute_tiles bbox pw ph o = Except.ok r)
      ↔ 0 < pw - o ∧ 0 < ph - o) := by
  simp only [compute_tiles]
  split_ifs with hc
  · refine ⟨⟨fun _ => hc, fun _ => rfl⟩, ?_, ?_⟩
    · rintro ⟨r, hr⟩
      simp at hr
    · rintro ⟨h1, h2⟩
      exact absurd hc (by push_neg; constructor <;> linarith)
  · have hc' := hc
    push_neg at hc'
    refine ⟨⟨fun hre => ?_, fun hor => absurd hor hc⟩, fun _ => ?_, fun _ => ⟨_, rfl⟩⟩
    · simp at hre
    · exact ⟨by linarith [hc'.1], by linarith [hc'.2]⟩

lemma concrete_plan_eval :
    compute_tiles ⟨0, 0, 500, 300⟩ 277 180 10 =
      Except.ok ([⟨0, 0, 0, 0⟩, ⟨1, 0, 267, 0⟩, ⟨0, 1, 0, 170⟩, ⟨1, 1, 267, 170⟩], 2, 2) := by
  have hx : (⌈((500:ℚ) - 0 - 10) / (277 - 10)⌉ : ℤ) = 2 := by
    rw [Int.ceil_eq_iff]
    norm_num
  have hy : (⌈((300:ℚ) - 0 - 10) / (180 - 10)⌉ : ℤ) = 2 := by
    rw [Int.ceil_eq_iff]
    norm_num
  simp only [compute_tiles]
  rw [if_neg (by push_neg; norm_num)]
  simp only [hx, hy]
  have hm : (((1:ℤ) ⊔ 2).toNat) = 2 := by decide
  rw [hm]
  norm_num [List.range_succ, List.flatMap_cons, List.flatMap_nil, Tile.mk.injEq]

lemma compute_tiles_ok_elim {bbox : BBox} {pw ph o : ℚ} {tiles : List Tile}
    {nx ny : ℕ} (h : compute_tiles bbox pw ph o = Except.ok (tiles, nx, ny)) :
    nx = (max 1 ⌈(bbox.maxx - bbox.minx - o) / (pw - o)⌉).toNat ∧
    ny = (max 1 ⌈(bbox.maxy - bbox.miny - o) / (ph - o)⌉).toNat ∧
    tiles = ((List.range ny).flatMap fun j => (List.range nx).map fun i =>
      ⟨i, j, bbox.minx + i * (pw - o), bbox.miny + j * (ph - o)⟩) := by
  simp only [compute_tiles] at h
  split_ifs at h
  simp only [Except.ok.injEq, Prod.mk.injEq] at h
  obtain ⟨h1, h2, h3⟩ := h
  subst h2
  subst h3
  exact ⟨rfl, rfl, h1.symm⟩

lemma rowMajorPairs_nodup (nx ny : ℕ) :
    ((List.range ny).flatMap fun j => (List.range nx).map fun i => (i, j)).Nodup := by
  refine List.nodup_flatMap.2 ⟨fun j _ => ?_, ?_⟩
  · exact List.Nodup.map (fun a b hab => congrArg Prod.fst hab) (List.nodup_range _)
  · refine List.Pairwise.imp ?_ (List.pairwise_lt_range _)
    intro j1 j2 hlt p hp1 hp2
    simp only [List.mem_map, List.mem_range] at hp1 hp2
    obtain ⟨i1, _, rfl⟩ := hp1
    obtain ⟨i2, _, h2⟩ := hp2
    exact absurd (congrArg Prod.snd h2.symm) (Nat.ne_of_lt hlt)

lemma rowMajorPairs_mem (nx ny i j : ℕ) :
    (i, j) ∈ ((List.range ny).flatMap fun j => (List.range nx).map fun i => (i, j))
      ↔ i < nx ∧ j < ny := by
  simp only [List.mem_flatMap, List.mem_map, List.mem_range, Prod.mk.injEq]
  constructor
  · rintro ⟨a, ha, b, hb, rfl, rfl⟩
    exact ⟨hb, ha⟩
  · rintro ⟨hi, hj⟩
    exact ⟨j, hj, i, hi, rfl, rfl⟩

lemma rowMajorPairs_length (nx ny : ℕ) :
    ((List.range ny).flatMap fun j => (List.range nx).map fun i => (i, j)).length
      = nx * ny := by
  induction ny with
  | zero => simp
  | succ n ih => simp [List.range_succ, ih, Nat.mul_succ]

/-- Claim C1: with positive steps on both axes the planner returns
`tileCount = max(1, ceil((total - overlap) / step))` per axis, and the tile
at column `i`, row `j` has world origin
`(minx + i*(pw - o), miny + j*(ph - o))`; in particular the bbox
(0,0)-(500,300) with printable 277×180 and overlap 10 yields a 2×2 grid with
origins (0,0), (267,0), (0,170), (267,170). -/
theorem C1_tile_planner (bbox : BBox) (pw ph o : ℚ)
    (hw : 0 < pw - o) (hh : 0 < ph - o) :
    (∃ tiles : List Tile,
      compute_tiles bbox pw ph o =
        Except.ok (tiles,
          (max 1 ⌈(bbox.maxx - bbox.minx - o) / (pw - o)⌉).toNat,
          (max 1 ⌈(bbox.maxy - bbox.miny - o) / (ph - o)⌉).toNat) ∧
      (∀ i j : ℕ, i < (max 1 ⌈(bbox.maxx - bbox.minx - o) / (pw - o)⌉).toNat →
          j < (max 1 ⌈(bbox.maxy - bbox.miny - o) / (ph - o)⌉).toNat →
          (⟨i, j, bbox.minx + i * (pw - o), bbox.miny + j * (ph - o)⟩ : Tile) ∈ tiles) ∧
      (∀ t ∈ tiles,
        t.i < (max 1 ⌈(bbox.maxx - bbox.minx - o) / (pw - o)⌉).toNat ∧
        t.j < (max 1 ⌈(bbox.maxy - bbox.miny - o) / (ph - o)⌉).toNat ∧
        t.x0 = bbox.minx + t.i * (pw - o) ∧ t.y0 = bbox.miny + t.j * (ph - o))) ∧
    compute_tiles ⟨0, 0, 500, 300⟩ 277 180 10 =
      Except.ok ([⟨0, 0, 0, 0⟩, ⟨1, 0, 267, 0⟩, ⟨0, 1, 0, 170⟩, ⟨1, 1, 267, 170⟩], 2, 2) := by
  refine ⟨?_, concrete_plan_eval⟩
  simp only [compute_tiles]
  rw [if_neg (by push_neg; exact ⟨by linarith, by linarith⟩)]
  refine ⟨_, rfl, ?_, ?_⟩
  · intro i j hi hj
    simp only [List.mem_flatMap, List.mem_map, List.mem_range]
    exact ⟨j, hj, i, hi, rfl⟩
  · intro t ht
    simp only [List.mem_flatMap, List.mem_map, List.mem_range] at ht
    obtain ⟨j, hj, i, hi, rfl⟩ := ht
    exact ⟨hi, hj, rfl, rfl⟩

/-- Witness for C1 at the concrete end-to-end scenario. -/
theorem C1_tile_planner_witness :
    (0:ℚ) < 277 - 10 ∧ (0:ℚ) < 180 - 10 ∧
    compute_tiles ⟨0, 0, 500, 300⟩ 277 180 10 =
      Except.ok ([⟨0, 0, 0, 0⟩, ⟨1, 0, 267, 0⟩, ⟨0, 1, 0, 170⟩, ⟨1, 1, 267, 170⟩], 2, 2) :=
  ⟨by norm_num, by norm_num,
    (C1_tile_planner ⟨0, 0, 500, 300⟩ 277 180 10 (by norm_num) (by norm_num)).2⟩

/-- Claim C10: a successful plan has exactly `nx * ny` tiles, containing each
index pair `(i, j)` with `i < nx`, `j < ny` exactly once (duplicate-free, and
membership is exactly the in-range pairs), enumerated row-major (`j` outer,
`i` fastest), and the compositor emits exactly one page per tile in that
order. -/
theorem C10_row_major_pages (bbox : BBox) (pw ph o : ℚ) (tiles : List Tile)
    (nx ny : ℕ) (sw sh : ℚ)
    (h : compute_tiles bbox pw ph o = Except.ok (tiles, nx, ny)) :
    tiles.length = nx * ny ∧
    (tiles.map fun t => (t.i, t.j)) =
      ((List.range ny).flatMap fun j => (List.range nx).map fun i => (i, j)) ∧
    (tiles.map fun t => (t.i, t.j)).Nodup ∧
    (∀ i j : ℕ, (i, j) ∈ tiles.map (fun t => (t.i, t.j)) ↔ i < nx ∧ j < ny) ∧
    (compositor_pages tiles nx ny sw sh).length = tiles.length ∧
    ((compositor_pages tiles nx ny sw sh).map fun p => (p.i, p.j)) =
      (tiles.map fun t => (t.i, t.j)) := by
  obtain ⟨hnx, hny, htiles⟩ := compute_tiles_ok_elim h
  subst htiles
  have hpairs : ((((List.range ny).flatMap fun j => (List.range nx).map fun i =>
        (⟨i, j, bbox.minx + i * (pw - o), bbox.miny + j * (ph - o)⟩ : Tile)).map
          fun t => (t.i, t.j)))
      = ((List.range ny).flatMap fun j => (List.range nx).map fun i => (i, j)) := by
    simp only [List.map_flatMap, List.map_map]
    rfl
  refine ⟨?_, hpairs, ?_, ?_, ?_, ?_⟩
  · have hlen := congrArg List.length hpairs
    rw [List.length_map] at hlen
    rw [hlen, rowMajorPairs_length]
  · rw [hpairs]
    exact rowMajorPairs_nodup nx ny
  · intro i j
    rw [hpairs]
    exact rowMajorPairs_mem nx ny i j
  · simp [compositor_pages]
  · simp [compositor_pages, List.map_map, Function.comp]

/-- Witness for C10 at the concrete 2×2 plan. -/
theorem C10_row_major_pages_witness :
    ([⟨0, 0, 0, 0⟩, ⟨1, 0, 267, 0⟩, ⟨0, 1, 0, 170⟩, ⟨1, 1, 267, 170⟩] : List Tile).length
      = 2 * 2 ∧
    ((compositor_pages [⟨0, 0, 0, 0⟩, ⟨1, 0, 267, 0⟩, ⟨0, 1, 0, 170⟩, ⟨1, 1, 267, 170⟩]
        2 2 239 160).map fun p => (p.i, p.j)) = [(0, 0), (1, 0), (0, 1), (1, 1)] := by
  have h := C10_row_major_pages ⟨0, 0, 500, 300⟩ 277 180 10
    [⟨0, 0, 0, 0⟩, ⟨1, 0, 267, 0⟩, ⟨0, 1, 0, 170⟩, ⟨1, 1, 267, 170⟩] 2 2 239 160
    concrete_plan_eval
  refine ⟨h.1, ?_⟩
  rw [h.2.2.2.2.2, h.2.1]
  rfl

/-- Counterexample for C6 as stated: with margin 10 mm (printable-area origin
at page x `10*mm`) and `step_w_pt = 267*mm`, the first tile of a 2×2 grid gets
its vertical seam at absolute page coordinate `267*mm` — which is `stepWidth`
measured from the paper's origin, not `10*mm + 267*mm` as "stepWidth from the
printable-area origin" would place it. -/
theorem C6_seam_counterexample :
    (compositor_pages [⟨0, 0, 0, 0⟩, ⟨1, 0, 267, 0⟩, ⟨0, 1, 0, 170⟩, ⟨1, 1, 267, 170⟩]
        2 2 (267 * mm) (170 * mm)).head?
      = some ⟨0, 0, some (267 * mm), some (170 * mm), 0, 0⟩ ∧
    (267 : ℚ) * mm ≠ 10 * mm + 267 * mm := by
  refine ⟨rfl, ?_⟩
  intro hc
  rw [mm] at hc
  norm_num at hc

/-- Claim C6 (amended): a tile not on the last column (resp. row) gets a
dashed seam indicator at absolute page-unit coordinate `step_w_pt` (resp.
`step_h_pt`) — i.e. measured from the paper's origin, not from the
printable-area origin — and the drawn seam line spans the page inset by
`inset` from the paper edges; tiles on the last column (resp. row) get no
seam on that axis. -/
theorem C6_seam_marks (bbox : BBox) (pw ph o : ℚ) (tiles : List Tile)
    (nx ny : ℕ) (sw sh : ℚ)
    (h : compute_tiles bbox pw ph o = Except.ok (tiles, nx, ny)) :
    (∀ p ∈ compositor_pages tiles nx ny sw sh,
      (p.seamX = if p.i ≠ nx - 1 then some sw else none) ∧
      (p.seamY = if p.j ≠ ny - 1 then some sh else none)) ∧
    (∀ x w hgt inset : ℚ,
      draw_edge_alignment_dashed_line (some x) none w hgt inset =
        [.saveState, .setLineWidth (4 / 5), .setLineCap 1,
         .setDashOnOff ((1 / 2) * mm) ((19 / 2) * mm),
         .lineCall x inset x (hgt - inset), .restoreState]) ∧
    (∀ y w hgt inset : ℚ,
      draw_edge_alignment_dashed_line none (some y) w hgt inset =
        [.saveState, .setLineWidth (4 / 5), .setLineCap 1,
         .setDashOnOff ((1 / 2) * mm) ((19 / 2) * mm),
         .lineCall inset y (w - inset) y, .restoreState]) := by
  obtain ⟨hnx, hny, htiles⟩ := compute_tiles_ok_elim h
  subst htiles
  refine ⟨?_, fun x w hgt inset => rfl, fun y w hgt inset => rfl⟩
  intro p hp
  simp only [compositor_pages, List.mem_map] at hp
  obtain ⟨t, ht, rfl⟩ := hp
  simp only [List.mem_flatMap, List.mem_map, List.mem_range] at ht
  obtain ⟨j, hj, i, hi, rfl⟩ := ht
  constructor
  · show (if i < nx - 1 then some sw else none) = if i ≠ nx - 1 then some sw else none
    have hiff : i < nx - 1 ↔ i ≠ nx - 1 := by omega
    by_cases hc : i < nx - 1
    · rw [if_pos hc, if_pos (hiff.mp hc)]
    · rw [if_neg hc, if_neg (fun hne => hc (hiff.mpr hne))]
  · show (if j < ny - 1 then some sh else none) = if j ≠ ny - 1 then some sh else none
    have hiff : j < ny - 1 ↔ j ≠ ny - 1 := by omega
    by_cases hc : j < ny - 1
    · rw [if_pos hc, if_pos (hiff.mp hc)]
    · rw [if_neg hc, if_neg (fun hne => hc (hiff.mpr hne))]

/-- Witness for C6 (amended) at the concrete 2×2 plan. -/
theorem C6_seam_marks_witness :
    (∀ p ∈ compositor_pages [⟨0, 0, 0, 0⟩, ⟨1, 0, 267, 0⟩, ⟨0, 1, 0, 170⟩, ⟨1, 1, 267, 170⟩]
        2 2 (267 * mm) (170 * mm),
      (p.seamX = if p.i ≠ 2 - 1 then some (267 * mm) else none) ∧
      (p.seamY = if p.j ≠ 2 - 1 then some (170 * mm) else none)) ∧
    (∀ x w hgt inset : ℚ,
      draw_edge_alignment_dashed_line (some x) none w hgt inset =
        [.saveState, .setLineWidth (4 / 5), .setLineCap 1,
         .setDashOnOff ((1 / 2) * mm) ((19 / 2) * mm),
         .lineCall x inset x (hgt - inset), .restoreState]) ∧
    (∀ y w hgt inset : ℚ,
      draw_edge_alignment_dashed_line none (some y) w hgt inset =
        [.saveState, .setLineWidth (4 / 5), .setLineCap 1,
         .setDashOnOff ((1 / 2) * mm) ((19 / 2) * mm),
         .lineCall inset y (w - inset) y, .restoreState]) :=
  C6_seam_marks ⟨0, 0, 500, 300⟩ 277 180 10
    [⟨0, 0, 0, 0⟩, ⟨1, 0, 267, 0⟩, ⟨0, 1, 0, 170⟩, ⟨1, 1, 267, 170⟩] 2 2
    (267 * mm) (170 * mm) concrete_plan_eval

/-- Claim C3: a continuous linetype name ("continuous"/"cont" in any case,
stripped) yields `none`; an unresolvable pattern yields `none`; a resolvable
non-continuous, nonempty pattern is mapped segment-wise by
`seg * scale * 0.3`, nonpositive results floored at `0.2*mm`, and duplicated
when the segment count is odd. -/
theorem C3_dash_array (doc : Doc) (scale : ℚ) :
    (∀ name : String,
      pyUpper (pyStrip name) = "CONTINUOUS" ∨ pyUpper (pyStrip name) = "CONT" →
      reportlab_dash_array_for_linetype doc name scale = none) ∧
    (∀ name : String, get_linetype_case_insensitive doc.linetypes name = none →
      reportlab_dash_array_for_linetype doc name scale = none) ∧
    (∀ name : String, ∀ pattern : List ℚ,
      linetype_name_is_continuous (some name) = false →
      get_linetype_case_insensitive doc.linetypes name = some pattern →
      pattern ≠ [] →
      reportlab_dash_array_for_linetype doc name scale =
        some (if (pattern.map fun seg =>
                if seg * scale * (3 / 10) ≤ 0 then (1 / 5) * mm
                else seg * scale * (3 / 10)).length % 2 = 1
              then (pattern.map fun seg =>
                if seg * scale * (3 / 10) ≤ 0 then (1 / 5) * mm
                else seg * scale * (3 / 10)) ++ (pattern.map fun seg =>
                if seg * scale * (3 / 10) ≤ 0 then (1 / 5) * mm
                else seg * scale * (3 / 10))
              else (pattern.map fun seg =>
                if seg * scale * (3 / 10) ≤ 0 then (1 / 5) * mm
                else seg * scale * (3 / 10)))) := by
  refine ⟨?_, ?_, ?_⟩
  · intro name h
    have hcont : linetype_name_is_continuous (some name) = true := by
      simp only [linetype_name_is_continuous]
      split_ifs with he
      · rfl
      · rcases h with h | h <;> simp [h]
    simp [reportlab_dash_array_for_linetype, hcont]
  · intro name hn
    unfold reportlab_dash_array_for_linetype
    split_ifs with hc
    · rfl
    · rw [hn]
  · intro name pattern hncont hsome hne
    unfold reportlab_dash_array_for_linetype
    rw [hncont, hsome]
    simp only [Bool.false_eq_true, if_false]
    obtain _ | ⟨a, rest⟩ := pattern
    · exact absurd rfl hne
    · simp only [List.isEmpty_cons, Bool.false_eq_true, if_false]

/-- Witness for C3: the spec's examples, pattern `[5,2]` and single-segment
`[3]` under scale `2.835`, plus a continuous and an unresolvable name. -/
theorem C3_dash_array_witness :
    reportlab_dash_array_for_linetype ⟨fun _ => none, [("DASHED", [5, 2]), ("CENTERX", [3])]⟩
      "DASHED" (2835 / 1000)
      = some [5 * (2835 / 1000) * (3 / 10), 2 * (2835 / 1000) * (3 / 10)] ∧
    reportlab_dash_array_for_linetype ⟨fun _ => none, [("DASHED", [5, 2]), ("CENTERX", [3])]⟩
      "CENTERX" (2835 / 1000)
      = some [3 * (2835 / 1000) * (3 / 10), 3 * (2835 / 1000) * (3 / 10)] ∧
    reportlab_dash_array_for_linetype ⟨fun _ => none, [("DASHED", [5, 2]), ("CENTERX", [3])]⟩
      "ConTinuous" (2835 / 1000) = none ∧
    reportlab_dash_array_for_linetype ⟨fun _ => none, [("DASHED", [5, 2]), ("CENTERX", [3])]⟩
      "NOSUCH" (2835 / 1000) = none := by
  have h := C3_dash_array ⟨fun _ => none, [("DASHED", [5, 2]), ("CENTERX", [3])]⟩ (2835 / 1000)
  refine ⟨?_, ?_, ?_, ?_⟩
  · rw [h.2.2 "DASHED" [5, 2] (by rfl) (by rfl) (by simp)]
    norm_num
  · rw [h.2.2 "CENTERX" [3] (by rfl) (by rfl) (by simp)]
    norm_num
  · exact h.1 "ConTinuous" (Or.inl (by rfl))
  · exact h.2.1 "NOSUCH" (by rfl)

/-- Claim C5: ordered fallback for the effective linetype.  An explicit
non-sentinel name is returned as-is; an absent/empty/"by-layer" name resolves
through the layer with "CONTINUOUS" as default whenever the layer or its
linetype is missing or empty; "by-block" yields "CONTINUOUS".  The function
is total, so resolution never raises. -/
theorem C5_effective_linetype (doc : Doc) (e : Entity) :
    (∀ s : String, e.linetype = some s → s ≠ "" →
      pyUpper (pyStrip s) ≠ "BYLAYER" → pyUpper (pyStrip s) ≠ "BYBLOCK" →
      effective_linetype_name doc e = s) ∧
    ((e.linetype = none ∨ e.linetype = some "" ∨
        (∃ s, e.linetype = some s ∧ pyUpper (pyStrip s) = "BYLAYER")) →
      (doc.layers (e.layer.getD "0") = none →
        effective_linetype_name doc e = "CONTINUOUS") ∧
      (∀ layer : LayerRec, doc.layers (e.layer.getD "0") = some layer →
        (layer.linetype = none → effective_linetype_name doc e = "CONTINUOUS") ∧
        (layer.linetype = some "" → effective_linetype_name doc e = "CONTINUOUS") ∧
        (∀ s : String, layer.linetype = some s → s ≠ "" →
          effective_linetype_name doc e = s))) ∧
    (∀ s : String, e.linetype = some s → s ≠ "" → pyUpper (pyStrip s) = "BYBLOCK" →
      effective_linetype_name doc e = "CONTINUOUS") := by
  refine ⟨?_, ?_, ?_⟩
  · intro s hs hse h1 h2
    simp only [effective_linetype_name, hs]
    rw [if_neg hse, if_neg h1, if_neg h2]
  · intro hcase
    have hlt : (pyUpper (pyStrip (match e.linetype with
        | none => "BYLAYER"
        | some s => if s = "" then "BYLAYER" else s)) = "BYLAYER") := by
      rcases hcase with hn | he | ⟨s, hs, hup⟩
      · rw [hn]
        rfl
      · rw [he]
        rfl
      · rw [hs]
        show pyUpper (pyStrip (if s = "" then "BYLAYER" else s)) = "BYLAYER"
        by_cases hse : s = ""
        · rw [if_pos hse]
          rfl
        · rw [if_neg hse]
          exact hup
    constructor
    · intro hlayer
      simp only [effective_linetype_name]
      rw [if_pos hlt, hlayer]
    · intro layer hlayer
      refine ⟨?_, ?_, ?_⟩
      · intro hll
        simp only [effective_linetype_name]
        rw [if_pos hlt, hlayer]
        simp only [hll]
      · intro hll
        simp only [effective_linetype_name]
        rw [if_pos hlt, hlayer]
        simp only [hll]
        rfl
      · intro s hll hse
        simp only [effective_linetype_name]
        rw [if_pos hlt, hlayer]
        simp only [hll]
        rw [if_neg hse]
  · intro s hs hse hup
    simp only [effective_linetype_name, hs]
    rw [if_neg hse]
    rw [if_neg (by rw [hup]; intro hcontra; exact absurd hcontra (by decide))]
    rw [if_pos hup]

/-- Witness for C5: concrete entities exercising the explicit, by-layer (with
present, missing and empty layer linetype), missing-layer and by-block
branches. -/
theorem C5_effective_linetype_witness :
    effective_linetype_name ⟨fun _ => none, []⟩ ⟨.line (0, 0) (1, 1), some "DASHED", some "L1"⟩
      = "DASHED" ∧
    effective_linetype_name
      ⟨fun n => if n = "L1" then some ⟨some "CENTER"⟩ else none, []⟩
      ⟨.line (0, 0) (1, 1), some "ByLayer", some "L1"⟩ = "CENTER" ∧
    effective_linetype_name ⟨fun _ => none, []⟩
      ⟨.line (0, 0) (1, 1), some "ByLayer", some "L1"⟩ = "CONTINUOUS" ∧
    effective_linetype_name ⟨fun _ => none, []⟩
      ⟨.line (0, 0) (1, 1), some "byblock", some "L1"⟩ = "CONTINUOUS" := by
  refine ⟨?_, ?_, ?_, ?_⟩
  · exact (C5_effective_linetype ⟨fun _ => none, []⟩
      ⟨.line (0, 0) (1, 1), some "DASHED", some "L1"⟩).1 "DASHED" rfl
      (by decide) (by decide) (by decide)
  · exact (((C5_effective_linetype
      ⟨fun n => if n = "L1" then some ⟨some "CENTER"⟩ else none, []⟩
      ⟨.line (0, 0) (1, 1), some "ByLayer", some "L1"⟩).2.1
      (Or.inr (Or.inr ⟨"ByLayer", rfl, by decide⟩))).2 ⟨some "CENTER"⟩
      (by decide)).2.2 "CENTER" rfl (by decide)
  · exact ((C5_effective_linetype ⟨fun _ => none, []⟩
      ⟨.line (0, 0) (1, 1), some "ByLayer", some "L1"⟩).2.1
      (Or.inr (Or.inr ⟨"ByLayer", rfl, by decide⟩))).1 rfl
  · exact (C5_effective_linetype ⟨fun _ => none, []⟩
      ⟨.line (0, 0) (1, 1), some "byblock", some "L1"⟩).2.2 "byblock" rfl
      (by decide) (by decide)

lemma listMin_le_init (x : ℚ) (l : List ℚ) : listMin x l ≤ x := by
  induction l generalizing x with
  | nil => exact le_refl x
  | cons a l ih => exact le_trans (ih (min x a)) (min_le_left x a)

lemma listMin_le_mem (x : ℚ) (l : List ℚ) : ∀ y ∈ l, listMin x l ≤ y := by
  induction l generalizing x with
  | nil => intro y hy; exact absurd hy (List.not_mem_nil y)
  | cons a l ih =>
    intro y hy
    rcases List.mem_cons.mp hy with rfl | hy
    · exact le_trans (listMin_le_init (min x y) l) (min_le_right x y)
    · exact ih (min x a) y hy

lemma listMin_eq_init_or_mem (x : ℚ) (l : List ℚ) :
    listMin x l = x ∨ listMin x l ∈ l := by
  induction l generalizing x with
  | nil => exact Or.inl rfl
  | cons a l ih =>
    rcases ih (min x a) with h | h
    · rcases min_choice x a with hc | hc
      · exact Or.inl (by rw [show listMin x (a :: l) = listMin (min x a) l from rfl, h, hc])
      · exact Or.inr (by
          rw [show listMin x (a :: l) = listMin (min x a) l from rfl, h, hc]
          exact List.mem_cons_self a l)
    · exact Or.inr (List.mem_cons_of_mem a h)

lemma init_le_listMax (x : ℚ) (l : List ℚ) : x ≤ listMax x l := by
  induction l generalizing x with
  | nil => exact le_refl x
  | cons a l ih => exact le_trans (le_max_left x a) (ih (max x a))

lemma mem_le_listMax (x : ℚ) (l : List ℚ) : ∀ y ∈ l, y ≤ listMax x l := by
  induction l generalizing x with
  | nil => intro y hy; exact absurd hy (List.not_mem_nil y)
  | cons a l ih =>
    intro y hy
    rcases List.mem_cons.mp hy with rfl | hy
    · exact le_trans (le_max_right x y) (init_le_listMax (max x y) l)
    · exact ih (max x a) y hy

lemma listMax_eq_init_or_mem (x : ℚ) (l : List ℚ) :
    listMax x l = x ∨ listMax x l ∈ l := by
  induction l generalizing x with
  | nil => exact Or.inl rfl
  | cons a l ih =>
    rcases ih (max x a) with h | h
    · rcases max_choice x a with hc | hc
      · exact Or.inl (by rw [show listMax x (a :: l) = listMax (max x a) l from rfl, h, hc])
      · exact Or.inr (by rw [show listMax x (a :: l) = listMax (max x a) l from rfl, h, hc]; exact List.mem_cons_self a l)
    · exact Or.inr (List.mem_cons_of_mem a h)

lemma listMin_append (x : ℚ) (l1 l2 : List ℚ) :
    listMin x (l1 ++ l2) = listMin (listMin x l1) l2 :=
  List.foldl_append min x l1 l2

lemma listMax_append (x : ℚ) (l1 l2 : List ℚ) :
    listMax x (l1 ++ l2) = listMax (listMax x l1) l2 :=
  List.foldl_append max x l1 l2

/-- Claim C7: the aggregate bbox errors ("no supported geometry") exactly
when no entity yields a box; on success it is the coordinate-wise min/max
over the non-`None` per-entity boxes (a bound that is attained on each
coordinate); appending an entity can only grow or keep each side. -/
theorem C7_aggregate_bbox (ents : List Entity) (scale : Option ℚ) (fmm : ℚ) :
    (drawing_bbox_wu ents scale fmm =
        Except.error "No supported geometry found in DXF (LINE/LWPOLYLINE/SPLINE/etc.)."
      ↔ ∀ e ∈ ents, entity_bbox_wu e scale fmm = none) ∧
    (∀ b : BBox, drawing_bbox_wu ents scale fmm = Except.ok b →
      (∀ e ∈ ents, ∀ bb : BBox, entity_bbox_wu e scale fmm = some bb →
        b.minx ≤ bb.minx ∧ b.miny ≤ bb.miny ∧ bb.maxx ≤ b.maxx ∧ bb.maxy ≤ b.maxy) ∧
      (∃ bb ∈ ents.filterMap (fun e => entity_bbox_wu e scale fmm), b.minx = bb.minx) ∧
      (∃ bb ∈ ents.filterMap (fun e => entity_bbox_wu e scale fmm), b.miny = bb.miny) ∧
      (∃ bb ∈ ents.filterMap (fun e => entity_bbox_wu e scale fmm), b.maxx = bb.maxx) ∧
      (∃ bb ∈ ents.filterMap (fun e => entity_bbox_wu e scale fmm), b.maxy = bb.maxy)) ∧
    (∀ e : Entity, ∀ b b' : BBox,
      drawing_bbox_wu ents scale fmm = Except.ok b →
      drawing_bbox_wu (ents ++ [e]) scale fmm = Except.ok b' →
      b'.minx ≤ b.minx ∧ b'.miny ≤ b.miny ∧ b.maxx ≤ b'.maxx ∧ b.maxy ≤ b'.maxy) := by
  refine ⟨?_, ?_, ?_⟩
  · cases hbbs : ents.filterMap (fun e => entity_bbox_wu e scale fmm) with
    | nil =>
      simp only [drawing_bbox_wu, hbbs]
      constructor
      · intro _ e he
        exact List.filterMap_eq_nil_iff.mp hbbs e he
      · intro _
        trivial
    | cons b0 rest =>
      simp only [drawing_bbox_wu, hbbs]
      constructor
      · intro hcontra
        simp at hcontra
      · intro hall
        exfalso
        have hb0 : b0 ∈ ents.filterMap (fun e => entity_bbox_wu e scale fmm) := by
          rw [hbbs]
          exact List.mem_cons_self _ _
        obtain ⟨e, he, hfe⟩ := List.mem_filterMap.mp hb0
        rw [hall e he] at hfe
        simp at hfe
  · intro b hb
    cases hbbs : ents.filterMap (fun e => entity_bbox_wu e scale fmm) with
    | nil =>
      simp only [drawing_bbox_wu, hbbs] at hb
      exact absurd hb (by simp)
    | cons b0 rest =>
      simp only [drawing_bbox_wu, hbbs] at hb
      rw [Except.ok.injEq] at hb
      subst hb
      refine ⟨?_, ?_, ?_, ?_, ?_⟩
      · intro e he bb hfe
        have hmem : bb ∈ ents.filterMap (fun e => entity_bbox_wu e scale fmm) :=
          List.mem_filterMap.mpr ⟨e, he, hfe⟩
        rw [hbbs] at hmem
        rcases List.mem_cons.mp hmem with rfl | hmem
        · exact ⟨listMin_le_init _ _, listMin_le_init _ _,
                 init_le_listMax _ _, init_le_listMax _ _⟩
        · exact ⟨listMin_le_mem _ _ _ (List.mem_map_of_mem _ hmem),
                 listMin_le_mem _ _ _ (List.mem_map_of_mem _ hmem),
                 mem_le_listMax _ _ _ (List.mem_map_of_mem _ hmem),
                 mem_le_listMax _ _ _ (List.mem_map_of_mem _ hmem)⟩
      · rcases listMin_eq_init_or_mem b0.minx (rest.map BBox.minx) with h | h
        · exact ⟨b0, List.mem_cons_self _ _, h⟩
        · obtain ⟨bb, hbbmem, hbbeq⟩ := List.mem_map.mp h
          exact ⟨bb, List.mem_cons_of_mem _ hbbmem, hbbeq.symm⟩
      · rcases listMin_eq_init_or_mem b0.miny (rest.map BBox.miny) with h | h
        · exact ⟨b0, List.mem_cons_self _ _, h⟩
        · obtain ⟨bb, hbbmem, hbbeq⟩ := List.mem_map.mp h
          exact ⟨bb, List.mem_cons_of_mem _ hbbmem, hbbeq.symm⟩
      · rcases listMax_eq_init_or_mem b0.maxx (rest.map BBox.maxx) with h | h
        · exact ⟨b0, List.mem_cons_self _ _, h⟩
        · obtain ⟨bb, hbbmem, hbbeq⟩ := List.mem_map.mp h
          exact ⟨bb, List.mem_cons_of_mem _ hbbmem, hbbeq.symm⟩
      · rcases listMax_eq_init_or_mem b0.maxy (rest.map BBox.maxy) with h | h
        · exact ⟨b0, List.mem_cons_self _ _, h⟩
        · obtain ⟨bb, hbbmem, hbbeq⟩ := List.mem_map.mp h
          exact ⟨bb, List.mem_cons_of_mem _ hbbmem, hbbeq.symm⟩
  · intro e b b' hb hb'
    cases hbbs : ents.filterMap (fun e => entity_bbox_wu e scale fmm) with
    | nil =>
      simp only [drawing_bbox_wu, hbbs] at hb
      exact absurd hb (by simp)
    | cons b0 rest =>
      have happ : (ents ++ [e]).filterMap (fun e => entity_bbox_wu e scale fmm)
          = b0 :: (rest ++ [e].filterMap (fun e => entity_bbox_wu e scale fmm)) := by
        rw [List.filterMap_append, hbbs, List.cons_append]
      simp only [drawing_bbox_wu, hbbs] at hb
      rw [Except.ok.injEq] at hb
      subst hb
      simp only [drawing_bbox_wu, happ] at hb'
      rw [Except.ok.injEq] at hb'
      subst hb'
      refine ⟨?_, ?_, ?_, ?_⟩
      · show listMin b0.minx ((rest ++ [e].filterMap
            (fun e => entity_bbox_wu e scale fmm)).map BBox.minx) ≤ _
        rw [List.map_append, listMin_append]
        exact listMin_le_init _ _
      · show listMin b0.miny ((rest ++ [e].filterMap
            (fun e => entity_bbox_wu e scale fmm)).map BBox.miny) ≤ _
        rw [List.map_append, listMin_append]
        exact listMin_le_init _ _
      · show _ ≤ listMax b0.maxx ((rest ++ [e].filterMap
            (fun e => entity_bbox_wu e scale fmm)).map BBox.maxx)
        rw [List.map_append, listMax_append]
        exact init_le_listMax _ _
      · show _ ≤ listMax b0.maxy ((rest ++ [e].filterMap
            (fun e => entity_bbox_wu e scale fmm)).map BBox.maxy)
        rw [List.map_append, listMax_append]
        exact init_le_listMax _ _

lemma flatten_degenerate (flat : ℚ → List (ℚ × ℚ)) (scaleOpt : Option ℚ) (fmm : ℚ)
    (h : scaleOpt = none ∨ scaleOpt = some 0 ∨
      (∀ s : ℚ, scaleOpt = some s → fmm * mm / s ≤ 0)) :
    flatten_path_entity_points flat scaleOpt fmm = [] := by
  rcases h with h | h | h
  · rw [h]
    rfl
  · rw [h]
    simp [flatten_path_entity_points]
  · cases scaleOpt with
    | none => rfl
    | some s =>
      simp only [flatten_path_entity_points]
      by_cases hs : s = 0
      · rw [if_pos hs]
      · rw [if_neg hs, if_pos (h s rfl)]

lemma dash_calls_not_geometry (dash : Option (List ℚ)) :
    ∀ x ∈ dash_calls dash, x.isGeometry = false := by
  intro x hx
  cases dash with
  | none => simp [dash_calls] at hx
  | some pat =>
    simp only [dash_calls] at hx
    by_cases hpe : pat.isEmpty
    · rw [if_pos hpe] at hx
      simp at hx
    · rw [if_neg hpe] at hx
      rw [List.mem_singleton.mp hx]
      rfl

lemma draw_entity_geometry_mem (e : Entity) (xform : WorldToPage) (doc : Option Doc)
    (exclude : Bool) :
    ∀ c ∈ draw_entity e xform doc exclude, c.isGeometry = true →
      c ∈ draw_entity_body e xform := by
  intro c hc hg
  cases doc with
  | none =>
    simp only [draw_entity] at hc
    rcases List.mem_cons.mp hc with rfl | hc
    · simp [SinkCall.isGeometry] at hg
    · rcases List.mem_append.mp hc with hc | hc
      · rcases List.mem_append.mp hc with hc | hc
        · have hng := dash_calls_not_geometry _ c hc
          rw [hg] at hng
          exact absurd hng (by decide)
        · exact hc
      · rw [List.mem_singleton.mp hc] at hg
        simp [SinkCall.isGeometry] at hg
  | some d =>
    simp only [draw_entity] at hc
    by_cases hb : (exclude
        && !(linetype_name_is_continuous (some (effective_linetype_name d e)))) = true
    · rw [if_pos hb] at hc
      simp at hc
    · rw [if_neg hb] at hc
      rcases List.mem_cons.mp hc with rfl | hc
      · simp [SinkCall.isGeometry] at hg
      · rcases List.mem_append.mp hc with hc | hc
        · rcases List.mem_append.mp hc with hc | hc
          · have hng := dash_calls_not_geometry _ c hc
            rw [hg] at hng
            exact absurd hng (by decide)
          · exact hc
        · rw [List.mem_singleton.mp hc] at hg
          simp [SinkCall.isGeometry] at hg

/-- Claim C8: a spline or ellipse whose world-to-page scale is absent or zero,
or whose flattening tolerance in world units (`flatten_mm * mm / scale`) is
nonpositive, yields `none` from bbox extraction and no geometry sink call
from rendering (rendering uses the fixed 0.5 mm tolerance of `draw_entity`);
both paths are total functions, so neither raises. -/
theorem C8_degenerate_curves (flat : ℚ → List (ℚ × ℚ)) (lt ly : Option String)
    (scaleOpt : Option ℚ) (fmm : ℚ) (xform : WorldToPage) (doc : Option Doc)
    (exclude : Bool) :
    ((scaleOpt = none ∨ scaleOpt = some 0 ∨
        (∀ s : ℚ, scaleOpt = some s → fmm * mm / s ≤ 0)) →
      entity_bbox_wu ⟨.spline flat, lt, ly⟩ scaleOpt fmm = none ∧
      entity_bbox_wu ⟨.ellipse flat, lt, ly⟩ scaleOpt fmm = none) ∧
    ((xform.scale_wu_to_pt = 0 ∨ (1 / 2) * mm / xform.scale_wu_to_pt ≤ 0) →
      (∀ c ∈ draw_entity ⟨.spline flat, lt, ly⟩ xform doc exclude,
        c.isGeometry = false) ∧
      (∀ c ∈ draw_entity ⟨.ellipse flat, lt, ly⟩ xform doc exclude,
        c.isGeometry = false)) := by
  constructor
  · intro h
    have hfl := flatten_degenerate flat scaleOpt fmm h
    constructor <;> simp [entity_bbox_wu, hfl]
  · intro h
    have hfl : flatten_path_entity_points flat (some xform.scale_wu_to_pt) (1 / 2) = [] := by
      apply flatten_degenerate
      rcases h with h | h
      · exact Or.inr (Or.inl (by rw [h]))
      · refine Or.inr (Or.inr ?_)
        intro s hs
        cases Option.some.inj hs
        exact h
    have hbody_sp : draw_entity_body ⟨.spline flat, lt, ly⟩ xform = [] := by
      simp only [draw_entity_body, hfl]
      rfl
    have hbody_el : draw_entity_body ⟨.ellipse flat, lt, ly⟩ xform = [] := by
      simp only [draw_entity_body, hfl]
      rfl
    constructor
    · intro c hc
      cases hgb : c.isGeometry
      · rfl
      · exact absurd (hbody_sp ▸ draw_entity_geometry_mem _ _ _ _ c hc hgb)
          (List.not_mem_nil c)
    · intro c hc
      cases hgb : c.isGeometry
      · rfl
      · exact absurd (hbody_el ▸ draw_entity_geometry_mem _ _ _ _ c hc hgb)
          (List.not_mem_nil c)

/-- Counterexample for C9 as stated: a circle with radius field `-1` gets the
box `(cx - r, cy - r, cx + r, cy + r) = (1, 1, -1, -1)`, whose
`minX = 0 - (-1)` strictly exceeds `maxX = 0 + (-1)` — the invariant fails
for an arbitrary (negative) radius value. -/
theorem C9_bbox_counterexample :
    entity_bbox_wu ⟨.circle (0, 0) (-1), none, none⟩ none (1 / 2)
      = some ⟨0 - (-1), 0 - (-1), 0 + (-1), 0 + (-1)⟩ ∧
    ¬((0:ℚ) - (-1) ≤ 0 + (-1)) := by
  exact ⟨rfl, by norm_num⟩

/-- Claim C9 (amended): every box produced by per-entity bbox extraction
satisfies `minX ≤ maxX` and `minY ≤ maxY`, provided the radius field of a
circle or arc entity is nonnegative (for all other kinds unconditionally). -/
theorem C9_bbox_invariant (e : Entity) (scaleOpt : Option ℚ) (fmm : ℚ) (b : BBox)
    (hr : ∀ c : ℚ × ℚ, ∀ r : ℚ,
      (e.geom = EntityGeom.circle c r ∨
        ∃ sa ea : ℚ, e.geom = EntityGeom.arc c r sa ea) → 0 ≤ r)
    (hb : entity_bbox_wu e scaleOpt fmm = some b) :
    b.minx ≤ b.maxx ∧ b.miny ≤ b.maxy := by
  cases hg : e.geom with
  | line p1 p2 =>
    simp only [entity_bbox_wu, hg] at hb
    cases Option.some.inj hb
    exact ⟨min_le_max, min_le_max⟩
  | lwpolyline pts closed =>
    simp only [entity_bbox_wu, hg] at hb
    cases pts with
    | nil => simp at hb
    | cons p rest =>
      cases Option.some.inj hb
      exact ⟨le_trans (listMin_le_init _ _) (init_le_listMax _ _),
             le_trans (listMin_le_init _ _) (init_le_listMax _ _)⟩
  | polyline pts isClosed =>
    simp only [entity_bbox_wu, hg] at hb
    cases pts with
    | nil => simp at hb
    | cons p rest =>
      cases Option.some.inj hb
      exact ⟨le_trans (listMin_le_init _ _) (init_le_listMax _ _),
             le_trans (listMin_le_init _ _) (init_le_listMax _ _)⟩
  | circle c r =>
    have h0r : 0 ≤ r := hr c r (Or.inl hg)
    simp only [entity_bbox_wu, hg] at hb
    cases Option.some.inj hb
    exact ⟨by simp only; linarith, by simp only; linarith⟩
  | arc c r sa ea =>
    have h0r : 0 ≤ r := hr c r (Or.inr ⟨sa, ea, hg⟩)
    simp only [entity_bbox_wu, hg] at hb
    cases Option.some.inj hb
    exact ⟨by simp only; linarith, by simp only; linarith⟩
  | point p =>
    simp only [entity_bbox_wu, hg] at hb
    cases Option.some.inj hb
    exact ⟨le_refl _, le_refl _⟩
  | spline flat =>
    simp only [entity_bbox_wu, hg] at hb
    cases hfl : flatten_path_entity_points flat scaleOpt fmm with
    | nil =>
      rw [hfl] at hb
      simp at hb
    | cons p rest =>
      rw [hfl] at hb
      cases Option.some.inj hb
      exact ⟨le_trans (listMin_le_init _ _) (init_le_listMax _ _),
             le_trans (listMin_le_init _ _) (init_le_listMax _ _)⟩
  | ellipse flat =>
    simp only [entity_bbox_wu, hg] at hb
    cases hfl : flatten_path_entity_points flat scaleOpt fmm with
    | nil =>
      rw [hfl] at hb
      simp at hb
    | cons p rest =>
      rw [hfl] at hb
      cases Option.some.inj hb
      exact ⟨le_trans (listMin_le_init _ _) (init_le_listMax _ _),
             le_trans (listMin_le_init _ _) (init_le_listMax _ _)⟩
  | unsupported tag =>
    simp only [entity_bbox_wu, hg] at hb
    simp at hb

/-- Witness for C9 (amended): a circle of nonnegative radius 5 at (2,3). -/
theorem C9_bbox_invariant_witness :
    entity_bbox_wu ⟨.circle (2, 3) 5, none, none⟩ none (1 / 2)
      = some ⟨2 - 5, 3 - 5, 2 + 5, 3 + 5⟩ ∧
    ((2:ℚ) - 5 ≤ 2 + 5 ∧ (3:ℚ) - 5 ≤ 3 + 5) := by
  refine ⟨rfl, ?_⟩
  exact C9_bbox_invariant ⟨.circle (2, 3) 5, none, none⟩ none (1 / 2)
    ⟨2 - 5, 3 - 5, 2 + 5, 3 + 5⟩
    (by
      intro c r h
      rcases h with h | ⟨sa, ea, h⟩
      · cases h
        norm_num
      · cases h)
    rfl
